import Mathlib

/-!
Shallow embedding of the supabase-image-cdn transformation pipeline.

The definitions below translate, as directly as Lean permits, the code of
  supabase/functions/image-cdn/utils/params.ts   (parameter validation),
  supabase/functions/image-cdn/utils/cache-key.ts (cache-key derivation),
  supabase/functions/image-cdn/utils/image.ts     (geometry and crop),
  supabase/functions/image-cdn/utils/security.ts  (signature checking),
  supabase/functions/image-cdn/index.ts           (the serve handler).

JavaScript numbers are modelled as Nat/Int for integral values and as Rat
where the source divides before rounding; JS truthiness of a
`number | null` (null and 0 are falsy) and of a `string | null` (null and
"" are falsy) is modelled explicitly.  Fallible functions return
`Except String`.  The HMAC-SHA256 primitive and the form-url encoder used
by `URLSearchParams.toString` are external capabilities of the runtime and
appear as explicit function parameters; the blob store appears as a record
of per-request I/O outcomes.
-/

set_option linter.unusedVariables false
set_option synthInstance.maxSize 512

/-- `FitMode` from params.ts. -/
inductive FitMode where
  | cover
  | contain
  | fill
deriving DecidableEq, Repr

/-- `ImageFormat` from params.ts. -/
inductive ImageFormat where
  | jpeg
  | png
deriving DecidableEq, Repr

/-- `CropPosition` from params.ts. -/
inductive CropPosition where
  | center
  | top
  | bottom
  | left
  | right
deriving DecidableEq, Repr

/-- `TransformConfig` from params.ts.  `width`/`height` are
`number | null` in the source, valid values being positive integers, so
they are modelled as `Option Nat`. -/
structure TransformConfig where
  bucket : String
  path : String
  width : Option Nat
  height : Option Nat
  fit : FitMode
  format : Option ImageFormat
  quality : Nat
  background : Option String
  crop : CropPosition
  noCache : Bool
deriving DecidableEq, Repr

/-- `ValidationLimits` from params.ts. -/
structure ValidationLimits where
  maxWidth : Nat
  maxHeight : Nat
  defaultQuality : Nat
  defaultBucket : String
deriving DecidableEq, Repr

/-- JS truthiness of a `number | null`: `null` and `0` are falsy. -/
def truthyN : Option Nat → Bool
  | none => false
  | some n => n != 0

/-- Decimal digit list of a natural number, most significant first,
written with explicit recursion depth so that it reduces structurally. -/
def natToDigitsAux : Nat → Nat → List Char
  | 0, _ => []
  | fuel + 1, n =>
    if n < 10 then [Char.ofNat (48 + n)]
    else natToDigitsAux fuel (n / 10) ++ [Char.ofNat (48 + n % 10)]

/-- Decimal digit list of a natural number, most significant first: the
digits a JS template literal prints for a nonnegative integral Number. -/
def natToDigits (n : Nat) : List Char := natToDigitsAux (n + 1) n

/-- Decimal rendering of a natural number (`${n}` in the source). -/
def natRepr (n : Nat) : String := String.mk (natToDigits n)

/-- Horner-style decoder of a decimal digit list; used to prove that
`natToDigits` is injective. -/
def digitsToNat (l : List Char) : Nat :=
  l.foldl (fun acc c => 10 * acc + (c.toNat - 48)) 0

/-- ASCII whitespace as trimmed by `String.prototype.trim` and skipped by
`parseInt` (the Unicode spaces are irrelevant to the pipeline). -/
def isJsSpace (c : Char) : Bool :=
  c == ' ' || c == '\t' || c == '\n' || c == '\r' || c == '\x0b' || c == '\x0c'

/-- `path.trim()` in sanitizePath. -/
def jsTrim (s : String) : String :=
  String.mk (((s.data.dropWhile isJsSpace).reverse.dropWhile isJsSpace).reverse)

/-- `replace(/^\/+|\/+$/g, "")` in sanitizePath: remove the run of leading
slashes and the run of trailing slashes. -/
def stripSlashes (s : String) : String :=
  String.mk (((s.data.dropWhile (· == '/')).reverse.dropWhile (· == '/')).reverse)

/-- The first list begins with the second one. -/
def leadsWith : List Char → List Char → Bool
  | _, [] => true
  | [], _ :: _ => false
  | c :: cs, p :: ps => c == p && leadsWith cs ps

/-- ".." occurs somewhere in the character list. -/
def hasDotDot : List Char → Bool
  | [] => false
  | c :: cs => leadsWith (c :: cs) ['.', '.'] || hasDotDot cs

/-- `sanitized.includes("..")`: the string has ".." as a substring. -/
def containsDotDot (s : String) : Bool :=
  hasDotDot s.data

/-- `sanitized.startsWith("/")`: for the one-character prefix this is
exactly a check of the first character. -/
def beginsWithSlash (s : String) : Bool :=
  leadsWith s.data ['/']

/-- `sanitizePath` from params.ts lines 32-47. -/
def sanitizePath (path : String) : Except String String :=
  let sanitized := stripSlashes (jsTrim path)
  if containsDotDot sanitized || beginsWithSlash sanitized then
    .error "Invalid path: path traversal detected"
  else if sanitized = "" then
    .error "Invalid path: path cannot be empty"
  else
    .ok sanitized

/-- Decimal digit test used by `parseInt`. -/
def isDigitChar (c : Char) : Bool := '0' ≤ c && c ≤ '9'

/-- `parseInt(value, 10)`: skip leading whitespace, take one optional
sign, then the longest run of decimal digits; NaN (here `none`) when that
run is empty, otherwise the signed value of the run, ignoring any
trailing garbage. -/
def jsParseInt (s : String) : Option Int :=
  let cs := s.data.dropWhile isJsSpace
  let signAndRest : Int × List Char :=
    match cs with
    | '-' :: rest => (-1, rest)
    | '+' :: rest => (1, rest)
    | _ => (1, cs)
  let ds := signAndRest.2.takeWhile isDigitChar
  if ds = [] then none
  else some (signAndRest.1 * (digitsToNat ds : Int))

/-- `parseIntParam` from params.ts lines 52-69.  `!value` is falsy for
`null` and for the empty string; an out-of-range parse throws rather than
clamping.  A returned value is in range, hence nonnegative, and is
reported as a `Nat`. -/
def parseIntParam (value : Option String) (mn mx : Nat) : Except String (Option Nat) :=
  match value with
  | none => .ok none
  | some v =>
    if v = "" then .ok none
    else
      match jsParseInt v with
      | none => .error ("Invalid number: " ++ v)
      | some parsed =>
        if parsed < (mn : Int) ∨ (mx : Int) < parsed then
          .error ("Number out of range: " ++ v)
        else
          .ok (some parsed.toNat)

/-- `parseFitMode` from params.ts lines 74-85. -/
def parseFitMode (value : Option String) : Except String FitMode :=
  match value with
  | none => .ok .cover
  | some v =>
    if v = "" then .ok .cover
    else if v = "cover" then .ok .cover
    else if v = "contain" then .ok .contain
    else if v = "fill" then .ok .fill
    else .error ("Invalid fit mode: " ++ v)

/-- `parseFormat` from params.ts lines 90-101. -/
def parseFormat (value : Option String) : Except String (Option ImageFormat) :=
  match value with
  | none => .ok none
  | some v =>
    if v = "" then .ok none
    else if v = "jpeg" then .ok (some .jpeg)
    else if v = "png" then .ok (some .png)
    else .error ("Invalid format: " ++ v)

/-- `parseCropPosition` from params.ts lines 106-124. -/
def parseCropPosition (value : Option String) : Except String CropPosition :=
  match value with
  | none => .ok .center
  | some v =>
    if v = "" then .ok .center
    else if v = "center" then .ok .center
    else if v = "top" then .ok .top
    else if v = "bottom" then .ok .bottom
    else if v = "left" then .ok .left
    else if v = "right" then .ok .right
    else .error ("Invalid crop position: " ++ v)

/-- One hexadecimal digit, as matched by `[0-9A-Fa-f]`. -/
def isHexDigit (c : Char) : Bool :=
  ('0' ≤ c && c ≤ '9') || ('a' ≤ c && c ≤ 'f') || ('A' ≤ c && c ≤ 'F')

/-- `parseBackground` from params.ts lines 129-140: the regex
`/^[0-9A-Fa-f]{6}$/` demands exactly six hex digits. -/
def parseBackground (value : Option String) : Except String (Option String) :=
  match value with
  | none => .ok none
  | some v =>
    if v = "" then .ok none
    else if v.length = 6 && v.data.all isHexDigit then .ok (some v)
    else .error ("Invalid background color: " ++ v)

/-- `parseQueryParams` from params.ts lines 145-182, over the getter view
of `URLSearchParams` (the function only calls `searchParams.get`). -/
def parseQueryParams (get : String → Option String) (limits : ValidationLimits) :
    Except String TransformConfig :=
  let bucket :=
    match get "bucket" with
    | none => limits.defaultBucket
    | some b => if b = "" then limits.defaultBucket else b
  match get "path" with
  | none => .error "Missing required parameter: path"
  | some rawPath =>
    if rawPath = "" then .error "Missing required parameter: path"
    else
      match sanitizePath rawPath with
      | .error e => .error e
      | .ok path =>
      match parseIntParam (get "w") 1 limits.maxWidth with
      | .error e => .error e
      | .ok width =>
      match parseIntParam (get "h") 1 limits.maxHeight with
      | .error e => .error e
      | .ok height =>
      match parseFitMode (get "fit") with
      | .error e => .error e
      | .ok fit =>
      match parseFormat (get "format") with
      | .error e => .error e
      | .ok format =>
      match parseIntParam (get "q") 1 100 with
      | .error e => .error e
      | .ok qOpt =>
      let quality :=
        match qOpt with
        | none => limits.defaultQuality
        | some q => if q = 0 then limits.defaultQuality else q
      match parseBackground (get "bg") with
      | .error e => .error e
      | .ok background =>
      match parseCropPosition (get "crop") with
      | .error e => .error e
      | .ok crop =>
      let noCache := get "no_cache" == some "1"
      .ok { bucket, path, width, height, fit, format, quality, background, crop, noCache }

/-- `getExtensionFromFormat` from cache-key.ts. -/
def getExtensionFromFormat : ImageFormat → String
  | .jpeg => "jpg"
  | .png => "png"

/-- `String.prototype.split` with a one-character separator. -/
def splitOnChar (sep : Char) : List Char → List (List Char)
  | [] => [[]]
  | c :: cs =>
    if c == sep then [] :: splitOnChar sep cs
    else
      match splitOnChar sep cs with
      | [] => [[c]]
      | r :: rs => (c :: r) :: rs

/-- `inferFormatFromPath` from cache-key.ts: lowercased last dot-segment,
unrecognised extensions fall back to jpeg. -/
def inferFormatFromPath (path : String) : ImageFormat :=
  let ext := ((splitOnChar '.' path.data).getLastD []).map Char.toLower
  if ext = "jpg".data ∨ ext = "jpeg".data then .jpeg
  else if ext = "png".data then .png
  else .jpeg

/-- `config.path.replace(/\.[^.]+$/, "")`: drop a final `.xyz` whose xyz
is nonempty and dot-free; otherwise leave the path alone. -/
def stripExt (path : String) : String :=
  let parts := splitOnChar '.' path.data
  if 2 ≤ parts.length ∧ parts.getLastD [] ≠ [] then
    String.mk (List.intercalate ['.'] parts.dropLast)
  else path

/-- Rendering of a `FitMode` (`${config.fit}`). -/
def fitToString : FitMode → String
  | .cover => "cover"
  | .contain => "contain"
  | .fill => "fill"

/-- Rendering of an `ImageFormat` (`${config.format}`). -/
def formatToString : ImageFormat → String
  | .jpeg => "jpeg"
  | .png => "png"

/-- Rendering of a `CropPosition` (`${config.crop}`). -/
def cropToString : CropPosition → String
  | .center => "center"
  | .top => "top"
  | .bottom => "bottom"
  | .left => "left"
  | .right => "right"

/-- `config.format || originalFormat` in buildCacheKey. -/
def outputFormat (c : TransformConfig) : ImageFormat :=
  match c.format with
  | some f => f
  | none => inferFormatFromPath c.path

/-- The `w=<width>` push of buildCacheKey (`if (config.width)`). -/
def wPart (c : TransformConfig) : Option String :=
  if truthyN c.width then some ("w=" ++ natRepr (c.width.getD 0)) else none

/-- The `h=<height>` push of buildCacheKey (`if (config.height)`). -/
def hPart (c : TransformConfig) : Option String :=
  if truthyN c.height then some ("h=" ++ natRepr (c.height.getD 0)) else none

/-- The `fit=<fit>` push of buildCacheKey: only when fit is not cover and
at least one dimension is truthy. -/
def fitPart (c : TransformConfig) : Option String :=
  if c.fit ≠ .cover ∧ (truthyN c.width || truthyN c.height) then
    some ("fit=" ++ fitToString c.fit)
  else none

/-- The `fmt=<format>` push of buildCacheKey: only for an explicit format
different from the format inferred from the path. -/
def fmtPart (c : TransformConfig) : Option String :=
  match c.format with
  | none => none
  | some f =>
    if f ≠ inferFormatFromPath c.path then some ("fmt=" ++ formatToString f) else none

/-- The `q=<quality>` push of buildCacheKey: the source compares against
the literal 80 (`if (config.quality !== 80)`). -/
def qPart (c : TransformConfig) : Option String :=
  if c.quality ≠ 80 then some ("q=" ++ natRepr c.quality) else none

/-- The `bg=<background>` push of buildCacheKey (`if (config.background)`;
the empty string is falsy). -/
def bgPart (c : TransformConfig) : Option String :=
  match c.background with
  | none => none
  | some b => if b = "" then none else some ("bg=" ++ b)

/-- The `crop=<crop>` push of buildCacheKey: only when crop is not center
and at least one dimension is truthy. -/
def cropPart (c : TransformConfig) : Option String :=
  if c.crop ≠ .center ∧ (truthyN c.width || truthyN c.height) then
    some ("crop=" ++ cropToString c.crop)
  else none

/-- Collapse the optional pushes into the pushed-parts list. -/
def optCat : List (Option String) → List String
  | [] => []
  | none :: rest => optCat rest
  | some s :: rest => s :: optCat rest

/-- The `parts` array of buildCacheKey after all conditional pushes, in
source order: path without extension first, then the optional components. -/
def buildCacheKeyParts (c : TransformConfig) : List String :=
  stripExt c.path ::
    optCat [wPart c, hPart c, fitPart c, fmtPart c, qPart c, bgPart c, cropPart c]

/-- `Array.prototype.join(sep)`. -/
def joinParts (sep : String) : List String → String
  | [] => ""
  | [s] => s
  | s :: t :: rest => s ++ sep ++ joinParts sep (t :: rest)

/-- `buildCacheKey` from cache-key.ts lines 299-349: join the parts with
`__` and append the extension of the resolved output format. -/
def buildCacheKey (c : TransformConfig) : String :=
  joinParts "__" (buildCacheKeyParts c) ++ "." ++ getExtensionFromFormat (outputFormat c)

/-- `Math.round`: round half toward positive infinity. -/
def jsRound (x : ℚ) : ℤ := ⌊x + 1 / 2⌋

/-- Result record of `calculateDimensions`. -/
structure DimResult where
  width : ℤ
  height : ℤ
  shouldCrop : Bool
deriving DecidableEq, Repr

/-- `calculateDimensions` from image.ts lines 22-109.  The JS arithmetic
`round(a * (b / c))` is modelled exactly over the rationals. -/
def calculateDimensions (originalWidth originalHeight : Nat)
    (targetWidth targetHeight : Option Nat) (fit : FitMode) : DimResult :=
  if truthyN targetWidth = false ∧ truthyN targetHeight = false then
    ⟨originalWidth, originalHeight, false⟩
  else if truthyN targetWidth = false then
    ⟨jsRound ((targetHeight.getD 0 : ℚ) * ((originalWidth : ℚ) / (originalHeight : ℚ))),
      targetHeight.getD 0, false⟩
  else if truthyN targetHeight = false then
    ⟨targetWidth.getD 0,
      jsRound ((targetWidth.getD 0 : ℚ) * ((originalHeight : ℚ) / (originalWidth : ℚ))), false⟩
  else
    let aspect : ℚ := (originalWidth : ℚ) / (originalHeight : ℚ)
    let targetAspect : ℚ := (targetWidth.getD 0 : ℚ) / (targetHeight.getD 0 : ℚ)
    match fit with
    | .fill => ⟨targetWidth.getD 0, targetHeight.getD 0, false⟩
    | .contain =>
      if targetAspect < aspect then
        ⟨targetWidth.getD 0, jsRound ((targetWidth.getD 0 : ℚ) / aspect), false⟩
      else
        ⟨jsRound ((targetHeight.getD 0 : ℚ) * aspect), targetHeight.getD 0, false⟩
    | .cover =>
      if targetAspect < aspect then
        ⟨jsRound ((targetHeight.getD 0 : ℚ) * aspect), targetHeight.getD 0, true⟩
      else
        ⟨targetWidth.getD 0, jsRound ((targetWidth.getD 0 : ℚ) / aspect), true⟩

/-- `Math.round((dim) / 2)` as used for crop anchoring. -/
def roundHalfOf (d : ℤ) : ℤ := jsRound ((d : ℚ) / 2)

/-- The `x`/`y` offsets computed by the switch of `applyCrop`
(image.ts lines 126-151) on a raster of the given current dimensions. -/
def cropOffsets (width height targetWidth targetHeight : ℤ) :
    CropPosition → ℤ × ℤ
  | .center => (roundHalfOf (width - targetWidth), roundHalfOf (height - targetHeight))
  | .top => (roundHalfOf (width - targetWidth), 0)
  | .bottom => (roundHalfOf (width - targetWidth), height - targetHeight)
  | .left => (0, roundHalfOf (height - targetHeight))
  | .right => (width - targetWidth, roundHalfOf (height - targetHeight))

/-- The rectangle handed to `image.crop` by `applyCrop`; `none` when the
early return fires because the raster already has the target size. -/
structure CropRect where
  x : ℤ
  y : ℤ
  w : ℤ
  h : ℤ
deriving DecidableEq, Repr

/-- `applyCrop` from image.ts lines 114-154, reduced to the crop rectangle
it requests from the codec. -/
def applyCrop (width height targetWidth targetHeight : ℤ) (pos : CropPosition) :
    Option CropRect :=
  if width = targetWidth ∧ height = targetHeight then none
  else
    some ⟨(cropOffsets width height targetWidth targetHeight pos).1,
      (cropOffsets width height targetWidth targetHeight pos).2,
      targetWidth, targetHeight⟩

/-- `URLSearchParams.get`: the value of the first pair with the name. -/
def lookupParam (ps : List (String × String)) (name : String) : Option String :=
  match ps.find? (fun kv => kv.1 == name) with
  | some kv => some kv.2
  | none => none

/-- `params.delete("token")`. -/
def removeParam (ps : List (String × String)) (name : String) : List (String × String) :=
  ps.filter (fun kv => kv.1 != name)

/-- `params.toString()` of `URLSearchParams`: the pairs in received order,
form-url encoded by the runtime's `encode` primitive. -/
def serializeParams (encode : String → String) (ps : List (String × String)) : String :=
  joinParts "&" (ps.map (fun kv => encode kv.1 ++ "=" ++ encode kv.2))

/-- `verifySignature` from security.ts lines 888-907.  `hmac canonical
secret` stands for the runtime's hex-encoded HMAC-SHA256
(`generateSignature`); a falsy token (absent or empty) verifies false. -/
def verifySignature (hmac : String → String → String) (encode : String → String)
    (ps : List (String × String)) (secret : String) : Bool :=
  match lookupParam ps "token" with
  | none => false
  | some token =>
    if token = "" then false
    else token == hmac (serializeParams encode (removeParam ps "token")) secret

/-- `checkSignature` from security.ts lines 912-925: a falsy secret
(unset or empty) disables signing entirely; otherwise an invalid
verification throws. -/
def checkSignature (hmac : String → String → String) (encode : String → String)
    (ps : List (String × String)) (signingSecret : Option String) : Except String Unit :=
  match signingSecret with
  | none => .ok ()
  | some s =>
    if s = "" then .ok ()
    else if verifySignature hmac encode ps s then .ok ()
    else .error "Invalid or missing signature"

/-- Outcomes of the four external storage/codec calls a single request can
make; the handler is a pure function of these. -/
structure RequestOutcomes where
  cacheDownload : Except String (List Nat)
  originDownload : Except String (List Nat)
  transformResult : Except String (List Nat × ImageFormat)
  cacheUpload : Except String Unit
deriving Repr

/-- Responses produced by the serve handler: `image` is `imageResponse`
(status 200 with the raw bytes), `err` is `errorResponse`. -/
inductive HttpResponse where
  | image (status : Nat) (bytes : List Nat) (format : ImageFormat)
  | err (status : Nat) (message : String)
deriving DecidableEq, Repr

/-- The serve handler of index.ts lines 724-853: method gate, signature
gate, parameter validation, cache lookup (any non-success is a miss),
origin fetch, transform, best-effort cache write, response. -/
def handleRequest (method : String) (hmac : String → String → String)
    (encode : String → String) (signingSecret : Option String)
    (ps : List (String × String)) (limits : ValidationLimits)
    (io : RequestOutcomes) : HttpResponse :=
  if method ≠ "GET" then
    .err 405 "Method not allowed. Only GET requests are supported."
  else
    match checkSignature hmac encode ps signingSecret with
    | .error _ => .err 403 "Invalid or missing signature"
    | .ok _ =>
    match parseQueryParams (lookupParam ps) limits with
    | .error e => .err 400 e
    | .ok config =>
      let cacheKey := buildCacheKey config
      let cached : Option (List Nat) :=
        if config.noCache then none
        else
          match io.cacheDownload with
          | .ok bytes => some bytes
          | .error _ => none
      match cached with
      | some bytes => .image 200 bytes (outputFormat config)
      | none =>
        match io.originDownload with
        | .error _ => .err 404 ("Resource not found: " ++ config.bucket ++ "/" ++ config.path)
        | .ok _originBytes =>
          match io.transformResult with
          | .error e => .err 500 e
          | .ok (transformedData, outFmt) =>
            let _writeOutcome := io.cacheUpload
            .image 200 transformedData outFmt

/-- Validity facts the parameter validator guarantees about the fields a
cache key renders: dimensions, when present, are positive, and a
background is exactly six hex digits. -/
def validCfg (c : TransformConfig) : Bool :=
  (match c.width with
   | none => true
   | some n => 1 ≤ n) &&
  (match c.height with
   | none => true
   | some n => 1 ≤ n) &&
  (match c.background with
   | none => true
   | some b => b.length = 6 && b.data.all isHexDigit)

/-- The transform-relevant resolution of a config: dimensions, fit,
resolved output format, quality, background and crop. -/
def resolvedTuple (c : TransformConfig) :
    Option Nat × Option Nat × FitMode × ImageFormat × Nat × Option String × CropPosition :=
  (c.width, c.height, c.fit, outputFormat c, c.quality, c.background, c.crop)

/-- First two characters of a string: the discriminating tag of a
cache-key component. -/
def tag2 (s : String) : Option Char × Option Char :=
  (s.data.head?, s.data.tail.head?)

/-- An optional component either is absent or carries the stated tag. -/
def TagOf (o : Option String) (t : Option Char × Option Char) : Prop :=
  ∀ s, o = some s → tag2 s = t

/-- A string usable as a joined cache-key component: nonempty, and free of
the separator character and the dot. -/
def partOk (s : String) : Prop :=
  s.data ≠ [] ∧ '_' ∉ s.data ∧ '.' ∉ s.data

/-- `Except` failure test. -/
def isErr {ε α : Type} : Except ε α → Bool
  | .error _ => true
  | .ok _ => false

/-! ### Basic facts about the embedding -/

theorem natRepr_example : natRepr 400 = "400" := rfl

theorem natRepr_example_zero : natRepr 0 = "0" := rfl

theorem natRepr_example_big : natRepr 31536000 = "31536000" := rfl

/-! ### C4: geometry resolver on the documented 1000x800 example -/

/-- C4 (confirmed): on a 1000x800 source with both targets 400,
`calculateDimensions` returns 400x320 without crop for contain, 400x400
without crop for fill, and for cover an intermediate raster of at least
400 on both axes with `shouldCrop` set (concretely 500x400). -/
theorem calculateDimensions_example_results :
    calculateDimensions 1000 800 (some 400) (some 400) .contain = ⟨400, 320, false⟩ ∧
    calculateDimensions 1000 800 (some 400) (some 400) .fill = ⟨400, 400, false⟩ ∧
    400 ≤ (calculateDimensions 1000 800 (some 400) (some 400) .cover).width ∧
    400 ≤ (calculateDimensions 1000 800 (some 400) (some 400) .cover).height ∧
    (calculateDimensions 1000 800 (some 400) (some 400) .cover).shouldCrop = true := by
  have hcov : calculateDimensions 1000 800 (some 400) (some 400) .cover = ⟨500, 400, true⟩ := by
    simp only [calculateDimensions, truthyN]
    norm_num [jsRound]
  refine ⟨?_, ?_, ?_, ?_, ?_⟩
  · simp only [calculateDimensions, truthyN]
    norm_num [jsRound]
  · simp only [calculateDimensions, truthyN]
    norm_num
  · rw [hcov]
    decide
  · rw [hcov]
  · rw [hcov]

/-! ### C7: the path sanitizer -/

/-- C7 counterexample: contrary to the claim, `sanitizePath` does not
reject the absolute path "/abs/path"; the leading slash is stripped
before the `startsWith("/")` check, so the input is accepted as
"abs/path". -/
theorem sanitizePath_accepts_absolute_path :
    sanitizePath "/abs/path" = .ok "abs/path" := rfl

/-- C7 (corrected): `sanitizePath` rejects "../../etc/passwd" and "" and
returns "products/shoe.jpg" unchanged, but accepts "/abs/path" as
"abs/path" (surrounding slashes are trimmed before any check, making the
leading-slash rejection unreachable); it also rejects ".." as a substring
rather than only as a path segment ("a..b.jpg" fails).  In general, after
trimming whitespace and surrounding slashes, it fails exactly when the
remainder contains "..", begins with "/", or is empty. -/
theorem sanitizePath_behaviour :
    sanitizePath "../../etc/passwd" = .error "Invalid path: path traversal detected" ∧
    sanitizePath "" = .error "Invalid path: path cannot be empty" ∧
    sanitizePath "products/shoe.jpg" = .ok "products/shoe.jpg" ∧
    sanitizePath "/abs/path" = .ok "abs/path" ∧
    sanitizePath "a..b.jpg" = .error "Invalid path: path traversal detected" ∧
    ∀ p : String,
      isErr (sanitizePath p) = true ↔
        (containsDotDot (stripSlashes (jsTrim p)) = true ∨
          beginsWithSlash (stripSlashes (jsTrim p)) = true ∨
          stripSlashes (jsTrim p) = "") := by
  refine ⟨rfl, rfl, rfl, rfl, rfl, ?_⟩
  intro p
  simp only [sanitizePath, isErr]
  cases hc : containsDotDot (stripSlashes (jsTrim p)) <;>
    cases hb : beginsWithSlash (stripSlashes (jsTrim p)) <;>
      by_cases hs : stripSlashes (jsTrim p) = "" <;>
        simp [hc, hb, hs]

/-! ### C6: integer parameter validation -/

/-- C6 counterexample: the empty string is not numeric (`parseInt` yields
NaN on it), yet `parseIntParam` does not fail on it: the `!value` guard
returns `null` first, treating the present-but-empty value as absent.
Trailing garbage after a digit run is likewise accepted ("12px" parses
to 12) rather than rejected. -/
theorem parseIntParam_silent_cases :
    jsParseInt "" = none ∧
    parseIntParam (some "") 1 2000 = .ok none ∧
    jsParseInt "12px" = some 12 ∧
    parseIntParam (some "12px") 1 2000 = .ok (some 12) :=
  ⟨rfl, rfl, rfl, rfl⟩

/-- C6 (corrected): for every nonempty raw value of w/h/q, a value on
which `parseInt` yields NaN is rejected, and a parsed value outside
[mn, mx] is rejected rather than clamped; a parsed value inside the range
is returned as-is.  (A present-but-empty value is treated as absent, and
characters after a leading digit run are ignored by `parseInt`.) -/
theorem parseIntParam_never_clamps (v : String) (mn mx : Nat) (hv : v ≠ "") :
    (jsParseInt v = none →
      parseIntParam (some v) mn mx = .error ("Invalid number: " ++ v)) ∧
    (∀ z : Int, jsParseInt v = some z →
      ((z < (mn : Int) ∨ (mx : Int) < z) →
        parseIntParam (some v) mn mx = .error ("Number out of range: " ++ v)) ∧
      ((mn : Int) ≤ z ∧ z ≤ (mx : Int) →
        parseIntParam (some v) mn mx = .ok (some z.toNat))) := by
  constructor
  · intro hnan
    simp [parseIntParam, hv, hnan]
  · intro z hz
    constructor
    · intro hrange
      simp [parseIntParam, hv, hz, hrange]
    · intro hin
      have : ¬(z < (mn : Int) ∨ (mx : Int) < z) := by omega
      simp [parseIntParam, hv, hz, this]

/-- C6 witness: the out-of-range value "5000" under maxWidth 2000 is
rejected, not clamped, and "abc" is rejected as non-numeric. -/
theorem parseIntParam_never_clamps_witness :
    parseIntParam (some "5000") 1 2000 = .error ("Number out of range: " ++ "5000") ∧
    parseIntParam (some "abc") 1 2000 = .error ("Invalid number: " ++ "abc") :=
  ⟨((parseIntParam_never_clamps "5000" 1 2000 (by decide)).2 5000 rfl).1 (by norm_num),
    (parseIntParam_never_clamps "abc" 1 2000 (by decide)).1 rfl⟩

/-! ### C8: the signature gate -/

/-- C8 (confirmed): with no signing secret configured, `checkSignature`
accepts every request; with a (nonempty) secret configured and no token
parameter present, it fails closed with the signature error.  (The source
treats a falsy secret, absent or empty, as signing-disabled.) -/
theorem checkSignature_fail_closed (hmac : String → String → String)
    (encode : String → String) (ps : List (String × String)) (s : String)
    (hs : s ≠ "") (htoken : lookupParam ps "token" = none) :
    checkSignature hmac encode ps none = .ok () ∧
    checkSignature hmac encode ps (some s) = .error "Invalid or missing signature" := by
  refine ⟨rfl, ?_⟩
  simp [checkSignature, hs, verifySignature, htoken]

/-- C8 witness: concrete instance with secret "secret" and a request
carrying only a path parameter. -/
theorem checkSignature_fail_closed_witness :
    checkSignature (fun _ _ => "") id [("path", "a.jpg")] none = .ok () ∧
    checkSignature (fun _ _ => "") id [("path", "a.jpg")] (some "secret") =
      .error "Invalid or missing signature" :=
  checkSignature_fail_closed (fun _ _ => "") id [("path", "a.jpg")] "secret"
    (by decide) rfl

/-! ### C9: cache-write failure is non-fatal on the miss path -/

/-- C9 (confirmed): on the miss path (cache bypassed or cache lookup not
successful), when the origin fetch and the transform succeed, the handler
returns status 200 with exactly the transformed bytes, whatever the
outcome of the cache write. -/
theorem handleRequest_cache_write_non_fatal (hmac : String → String → String)
    (encode : String → String) (secret : Option String)
    (ps : List (String × String)) (limits : ValidationLimits)
    (io : RequestOutcomes) (config : TransformConfig)
    (originBytes transformedData : List Nat) (outFmt : ImageFormat)
    (hsig : checkSignature hmac encode ps secret = .ok ())
    (hparse : parseQueryParams (lookupParam ps) limits = .ok config)
    (hmiss : config.noCache = true ∨ ∃ e, io.cacheDownload = .error e)
    (horigin : io.originDownload = .ok originBytes)
    (htransform : io.transformResult = .ok (transformedData, outFmt))
    (u : Except String Unit) :
    handleRequest "GET" hmac encode secret ps limits { io with cacheUpload := u } =
      .image 200 transformedData outFmt := by
  rcases hmiss with hnc | ⟨e, hcd⟩
  · simp [handleRequest, hsig, hparse, hnc, horigin, htransform]
  · simp [handleRequest, hsig, hparse, hcd, horigin, htransform]

/-- C9 witness: a concrete request with a failing cache read and a failing
cache write still yields 200 with the transformed bytes. -/
theorem handleRequest_cache_write_non_fatal_witness :
    handleRequest "GET" (fun _ _ => "") id none [("path", "a.jpg")]
      ⟨2000, 2000, 80, "images"⟩
      { cacheDownload := .error "read failed", originDownload := .ok [1, 2, 3],
        transformResult := .ok ([9, 9], .jpeg), cacheUpload := .error "write failed" } =
      .image 200 [9, 9] .jpeg :=
  handleRequest_cache_write_non_fatal (fun _ _ => "") id none [("path", "a.jpg")]
    ⟨2000, 2000, 80, "images"⟩
    { cacheDownload := .error "read failed", originDownload := .ok [1, 2, 3],
      transformResult := .ok ([9, 9], .jpeg), cacheUpload := .ok () }
    { bucket := "images", path := "a.jpg", width := none, height := none, fit := .cover,
      format := none, quality := 80, background := none, crop := .center, noCache := false }
    [1, 2, 3] [9, 9] .jpeg rfl rfl (Or.inr ⟨"read failed", rfl⟩) rfl rfl
    (.error "write failed")

/-! ### C10: present-but-empty parameters act like absent ones -/

theorem parseIntParam_empty (mn mx : Nat) : parseIntParam (some "") mn mx = .ok none := rfl

theorem parseIntParam_absent (mn mx : Nat) : parseIntParam none mn mx = .ok none := rfl

theorem parseFitMode_empty : parseFitMode (some "") = .ok .cover := rfl

theorem parseFitMode_absent : parseFitMode none = .ok .cover := rfl

theorem parseFormat_empty : parseFormat (some "") = .ok none := rfl

theorem parseFormat_absent : parseFormat none = .ok none := rfl

theorem parseCropPosition_empty : parseCropPosition (some "") = .ok .center := rfl

theorem parseCropPosition_absent : parseCropPosition none = .ok .center := rfl

theorem parseBackground_empty : parseBackground (some "") = .ok none := rfl

theorem parseBackground_absent : parseBackground none = .ok none := rfl

/-- C10 (confirmed): for each of the parameters w, h, q, fit, format,
crop, bg and bucket, a present-but-empty raw value makes
`parseQueryParams` behave exactly as if the parameter were absent: every
falsy-value guard fires before any validation, so the documented default
(or null) is used and no error is raised for that parameter. -/
theorem parseQueryParams_empty_is_absent (get : String → Option String)
    (limits : ValidationLimits) (name : String)
    (hname : name ∈ ["w", "h", "q", "fit", "format", "crop", "bg", "bucket"]) :
    parseQueryParams (fun k => if k = name then some "" else get k) limits =
      parseQueryParams (fun k => if k = name then none else get k) limits := by
  fin_cases hname <;>
    simp [parseQueryParams, parseIntParam_empty, parseIntParam_absent, parseFitMode_empty,
      parseFitMode_absent, parseFormat_empty, parseFormat_absent, parseCropPosition_empty,
      parseCropPosition_absent, parseBackground_empty, parseBackground_absent]

/-- C10 witness: with only a path present, adding `w=` with an empty value
leaves the parse result unchanged. -/
theorem parseQueryParams_empty_is_absent_witness :
    ("w" : String) ∈ ["w", "h", "q", "fit", "format", "crop", "bg", "bucket"] ∧
    parseQueryParams
        (fun k => if k = "w" then some "" else if k = "path" then some "a.jpg" else none)
        ⟨2000, 2000, 80, "images"⟩ =
      parseQueryParams
        (fun k => if k = "w" then none else if k = "path" then some "a.jpg" else none)
        ⟨2000, 2000, 80, "images"⟩ :=
  ⟨by decide,
    parseQueryParams_empty_is_absent
      (fun k => if k = "path" then some "a.jpg" else none)
      ⟨2000, 2000, 80, "images"⟩ "w" (by decide)⟩

/-! ### C5: cover geometry dominates the target box; crop stays in bounds -/

theorem jsRound_ge (q : ℚ) (z : Int) (h : (z : ℚ) ≤ q) : z ≤ jsRound q := by
  unfold jsRound
  apply Int.le_floor.mpr
  linarith

theorem roundHalfOf_bounds (d : Int) (hd : 0 ≤ d) :
    0 ≤ roundHalfOf d ∧ roundHalfOf d ≤ d := by
  have hd' : (0 : ℚ) ≤ (d : ℚ) := by exact_mod_cast hd
  unfold roundHalfOf jsRound
  constructor
  · apply Int.le_floor.mpr
    push_cast
    linarith
  · have hlt : ((d : ℚ) / 2 + 1 / 2) < ((d + 1 : Int) : ℚ) := by
      push_cast
      linarith
    have := Int.floor_lt.mpr hlt
    omega

theorem cover_dims_spec (ow oh tw th : Nat) (how : 0 < ow) (hoh : 0 < oh)
    (htw : 0 < tw) (hth : 0 < th) :
    (tw : Int) ≤ (calculateDimensions ow oh (some tw) (some th) .cover).width ∧
    (th : Int) ≤ (calculateDimensions ow oh (some tw) (some th) .cover).height ∧
    (calculateDimensions ow oh (some tw) (some th) .cover).shouldCrop = true := by
  have htwt : truthyN (some tw) = true := by
    simp only [truthyN, bne_iff_ne, ne_eq]
    omega
  have htht : truthyN (some th) = true := by
    simp only [truthyN, bne_iff_ne, ne_eq]
    omega
  have how' : (0 : ℚ) < (ow : ℚ) := by exact_mod_cast how
  have hoh' : (0 : ℚ) < (oh : ℚ) := by exact_mod_cast hoh
  have htw' : (0 : ℚ) < (tw : ℚ) := by exact_mod_cast htw
  have hth' : (0 : ℚ) < (th : ℚ) := by exact_mod_cast hth
  simp only [calculateDimensions, htwt, htht, Option.getD_some]
  norm_num
  by_cases hlt : (tw : ℚ) / (th : ℚ) < (ow : ℚ) / (oh : ℚ)
  · rw [if_pos hlt]
    refine ⟨?_, le_refl _, rfl⟩
    apply jsRound_ge
    rw [div_lt_div_iff hth' hoh'] at hlt
    push_cast
    rw [← mul_div_assoc, le_div_iff hoh']
    linarith
  · rw [if_neg hlt]
    refine ⟨le_refl _, ?_, rfl⟩
    apply jsRound_ge
    rw [not_lt, div_le_div_iff hoh' hth'] at hlt
    push_cast
    rw [div_div_eq_mul_div, le_div_iff how']
    linarith

/-- C5 (confirmed): for positive source and target dimensions under
fit=cover, the resolved intermediate dimensions dominate the target box on
both axes with `shouldCrop` set, and for every crop anchor the offsets
computed by `applyCrop` on that intermediate raster are nonnegative and
the requested crop rectangle lies inside the raster. -/
theorem cover_crop_offsets_safe (ow oh tw th : Nat) (how : 0 < ow) (hoh : 0 < oh)
    (htw : 0 < tw) (hth : 0 < th) (pos : CropPosition) :
    ((tw : Int) ≤ (calculateDimensions ow oh (some tw) (some th) .cover).width ∧
      (th : Int) ≤ (calculateDimensions ow oh (some tw) (some th) .cover).height ∧
      (calculateDimensions ow oh (some tw) (some th) .cover).shouldCrop = true) ∧
    (0 ≤ (cropOffsets (calculateDimensions ow oh (some tw) (some th) .cover).width
        (calculateDimensions ow oh (some tw) (some th) .cover).height tw th pos).1 ∧
      0 ≤ (cropOffsets (calculateDimensions ow oh (some tw) (some th) .cover).width
        (calculateDimensions ow oh (some tw) (some th) .cover).height tw th pos).2 ∧
      (cropOffsets (calculateDimensions ow oh (some tw) (some th) .cover).width
        (calculateDimensions ow oh (some tw) (some th) .cover).height tw th pos).1 + tw ≤
        (calculateDimensions ow oh (some tw) (some th) .cover).width ∧
      (cropOffsets (calculateDimensions ow oh (some tw) (some th) .cover).width
        (calculateDimensions ow oh (some tw) (some th) .cover).height tw th pos).2 + th ≤
        (calculateDimensions ow oh (some tw) (some th) .cover).height) := by
  obtain ⟨hw, hh, hc⟩ := cover_dims_spec ow oh tw th how hoh htw hth
  refine ⟨⟨hw, hh, hc⟩, ?_⟩
  have hx := roundHalfOf_bounds
    ((calculateDimensions ow oh (some tw) (some th) .cover).width - tw) (by omega)
  have hy := roundHalfOf_bounds
    ((calculateDimensions ow oh (some tw) (some th) .cover).height - th) (by omega)
  cases pos <;> simp only [cropOffsets] <;> omega

/-- C5 witness: the 1000x800 source with a 400x400 cover target and a
top-anchored crop. -/
theorem cover_crop_offsets_safe_witness :
    ((400 : Int) ≤ (calculateDimensions 1000 800 (some 400) (some 400) .cover).width ∧
      (400 : Int) ≤ (calculateDimensions 1000 800 (some 400) (some 400) .cover).height ∧
      (calculateDimensions 1000 800 (some 400) (some 400) .cover).shouldCrop = true) ∧
    (0 ≤ (cropOffsets (calculateDimensions 1000 800 (some 400) (some 400) .cover).width
        (calculateDimensions 1000 800 (some 400) (some 400) .cover).height 400 400 .top).1 ∧
      0 ≤ (cropOffsets (calculateDimensions 1000 800 (some 400) (some 400) .cover).width
        (calculateDimensions 1000 800 (some 400) (some 400) .cover).height 400 400 .top).2 ∧
      (cropOffsets (calculateDimensions 1000 800 (some 400) (some 400) .cover).width
        (calculateDimensions 1000 800 (some 400) (some 400) .cover).height 400 400 .top).1 + 400 ≤
        (calculateDimensions 1000 800 (some 400) (some 400) .cover).width ∧
      (cropOffsets (calculateDimensions 1000 800 (some 400) (some 400) .cover).width
        (calculateDimensions 1000 800 (some 400) (some 400) .cover).height 400 400 .top).2 + 400 ≤
        (calculateDimensions 1000 800 (some 400) (some 400) .cover).height) :=
  cover_crop_offsets_safe 1000 800 400 400 (by decide) (by decide) (by decide) (by decide) .top

/-! ### C3: default-collapsed configs share a cache key -/

theorem fmtPart_congr (c1 c2 : TransformConfig) (hpath : c1.path = c2.path)
    (hfmt : outputFormat c1 = outputFormat c2) : fmtPart c1 = fmtPart c2 := by
  unfold outputFormat at hfmt
  unfold fmtPart
  rw [hpath] at hfmt ⊢
  cases hf1 : c1.format <;> cases hf2 : c2.format <;> rw [hf1, hf2] at hfmt <;> simp_all

/-- C3 (confirmed): two distinct configs with the same source path that
resolve to the same effective width, height, fit, output format, quality,
background and crop (collapsing an explicit format equal to the one
inferred from the path onto the absent format) produce the same cache
key; the key never depends on `bucket` or `noCache`. -/
theorem buildCacheKey_resolved_congruence (c1 c2 : TransformConfig) (hne : c1 ≠ c2)
    (hpath : c1.path = c2.path) (hw : c1.width = c2.width) (hh : c1.height = c2.height)
    (hfit : c1.fit = c2.fit) (hfmt : outputFormat c1 = outputFormat c2)
    (hq : c1.quality = c2.quality) (hbg : c1.background = c2.background)
    (hcrop : c1.crop = c2.crop) :
    buildCacheKey c1 = buildCacheKey c2 := by
  have hfp := fmtPart_congr c1 c2 hpath hfmt
  unfold buildCacheKey buildCacheKeyParts
  unfold wPart hPart fitPart qPart bgPart cropPart
  rw [hpath, hw, hh, hfit, hq, hbg, hcrop, hfp, hfmt]

/-- C3 witness: an explicit `format=jpeg` on a .jpg path collapses onto
the absent format, and `noCache` does not enter the key. -/
theorem buildCacheKey_resolved_congruence_witness :
    buildCacheKey
        { bucket := "images", path := "a.jpg", width := some 400, height := none,
          fit := .cover, format := some .jpeg, quality := 80, background := none,
          crop := .center, noCache := true } =
      buildCacheKey
        { bucket := "other", path := "a.jpg", width := some 400, height := none,
          fit := .cover, format := none, quality := 80, background := none,
          crop := .center, noCache := false } :=
  buildCacheKey_resolved_congruence _ _ (by decide) rfl rfl rfl rfl rfl rfl rfl rfl

/-! ### C2: the quality component of the cache key -/

theorem q_comp_data (s : String) : ("q=" ++ s).data = 'q' :: '=' :: s.data := rfl

theorem w_comp_data (s : String) : ("w=" ++ s).data = 'w' :: '=' :: s.data := rfl

theorem h_comp_data (s : String) : ("h=" ++ s).data = 'h' :: '=' :: s.data := rfl

theorem fit_comp_data (s : String) :
    ("fit=" ++ s).data = 'f' :: 'i' :: 't' :: '=' :: s.data := rfl

theorem fmt_comp_data (s : String) :
    ("fmt=" ++ s).data = 'f' :: 'm' :: 't' :: '=' :: s.data := rfl

theorem bg_comp_data (s : String) :
    ("bg=" ++ s).data = 'b' :: 'g' :: '=' :: s.data := rfl

theorem crop_comp_data (s : String) :
    ("crop=" ++ s).data = 'c' :: 'r' :: 'o' :: 'p' :: '=' :: s.data := rfl

theorem optCat_mem (s : String) : ∀ (l : List (Option String)), s ∈ optCat l ↔ some s ∈ l
  | [] => by simp [optCat]
  | none :: t => by simp [optCat, optCat_mem s t]
  | some a :: t => by simp [optCat, optCat_mem s t]

/-- C2 counterexample: under configured limits with default quality 90, a
request with no `q` parameter is given quality 90 — equal to the
configured default — yet `buildCacheKey` still emits the `q=90`
component, because the source compares against the literal 80. -/
theorem cacheKey_q_despite_default :
    parseQueryParams (fun k => if k = "path" then some "a.jpg" else none)
        ⟨2000, 2000, 90, "images"⟩ =
      .ok { bucket := "images", path := "a.jpg", width := none, height := none,
            fit := .cover, format := none, quality := 90, background := none,
            crop := .center, noCache := false } ∧
    (⟨2000, 2000, 90, "images"⟩ : ValidationLimits).defaultQuality = 90 ∧
    ("q=" ++ natRepr 90) ∈ buildCacheKeyParts
      { bucket := "images", path := "a.jpg", width := none, height := none,
        fit := .cover, format := none, quality := 90, background := none,
        crop := .center, noCache := false } :=
  ⟨rfl, rfl, by decide⟩

/-- C2 (corrected): the cache key carries the `q=<quality>` component if
and only if the config's quality differs from the hard-coded literal 80 —
not from the configured default quality.  (The side condition keeps the
path component, which the key also contains, from itself spelling
`q=...`.) -/
theorem cacheKey_q_iff_literal_eighty (c : TransformConfig)
    (hpath : (stripExt c.path).data.take 2 ≠ ['q', '=']) :
    (("q=" ++ natRepr c.quality) ∈ buildCacheKeyParts c) ↔ c.quality ≠ 80 := by
  constructor
  · intro hmem
    by_contra hq
    rcases List.mem_cons.mp hmem with hhead | htail
    · apply hpath
      rw [← hhead, q_comp_data]
      rfl
    · have hsome := (optCat_mem _ _).mp htail
      simp only [List.mem_cons, List.not_mem_nil, or_false] at hsome
      rcases hsome with h | h | h | h | h | h | h
      · unfold wPart at h
        by_cases tw : truthyN c.width = true <;> simp [tw] at h
        have hd := congrArg String.data h
        rw [q_comp_data, w_comp_data] at hd
        simp at hd
      · unfold hPart at h
        by_cases tw : truthyN c.height = true <;> simp [tw] at h
        have hd := congrArg String.data h
        rw [q_comp_data, h_comp_data] at hd
        simp at hd
      · unfold fitPart at h
        by_cases hc : c.fit ≠ .cover ∧ (truthyN c.width || truthyN c.height) = true
        · simp [hc] at h
          have hd := congrArg String.data h
          rw [q_comp_data, fit_comp_data] at hd
          simp at hd
        · simp [hc] at h
          have hd := congrArg String.data h.2
          rw [q_comp_data, fit_comp_data] at hd
          simp at hd
      · unfold fmtPart at h
        cases hf : c.format with
        | none => simp [hf] at h
        | some f =>
          by_cases hne : f ≠ inferFormatFromPath c.path <;> simp [hf, hne] at h
          have hd := congrArg String.data h
          rw [q_comp_data, fmt_comp_data] at hd
          simp at hd
      · unfold qPart at h
        simp [hq] at h
      · unfold bgPart at h
        cases hb : c.background with
        | none => simp [hb] at h
        | some b =>
          by_cases hbe : b = "" <;> simp [hb, hbe] at h
          have hd := congrArg String.data h
          rw [q_comp_data, bg_comp_data] at hd
          simp at hd
      · unfold cropPart at h
        by_cases hc : c.crop ≠ .center ∧ (truthyN c.width || truthyN c.height) = true
        · simp [hc] at h
          have hd := congrArg String.data h
          rw [q_comp_data, crop_comp_data] at hd
          simp at hd
        · simp [hc] at h
          have hd := congrArg String.data h.2
          rw [q_comp_data, crop_comp_data] at hd
          simp at hd
  · intro hq
    apply List.mem_cons_of_mem
    apply (optCat_mem _ _).mpr
    have : qPart c = some ("q=" ++ natRepr c.quality) := by
      unfold qPart
      simp [hq]
    simp [this]

/-- C2 witness: a config with quality 90 (not the literal 80) on path
"a.jpg" carries the q component. -/
theorem cacheKey_q_iff_literal_eighty_witness :
    (((stripExt "a.jpg").data.take 2 ≠ ['q', '=']) ∧
      ((("q=" ++ natRepr 90) ∈ buildCacheKeyParts
        { bucket := "images", path := "a.jpg", width := none, height := none,
          fit := .cover, format := none, quality := 90, background := none,
          crop := .center, noCache := false }) ↔ (90 : Nat) ≠ 80)) :=
  ⟨by decide,
    cacheKey_q_iff_literal_eighty
      { bucket := "images", path := "a.jpg", width := none, height := none,
        fit := .cover, format := none, quality := 90, background := none,
        crop := .center, noCache := false } (by decide)⟩

/-! ### C1 groundwork: decimal rendering is injective and digit-only -/

theorem digitChar_toNat (n : Nat) (h : n < 10) : (Char.ofNat (48 + n)).toNat = 48 + n := by
  interval_cases n <;> decide

theorem digitChar_props (n : Nat) (h : n < 10) :
    Char.ofNat (48 + n) ≠ '_' ∧ Char.ofNat (48 + n) ≠ '.' := by
  interval_cases n <;> exact ⟨by decide, by decide⟩

theorem digitsToNat_append_one (A : List Char) (c : Char) :
    digitsToNat (A ++ [c]) = 10 * digitsToNat A + (c.toNat - 48) := by
  unfold digitsToNat
  rw [List.foldl_append]
  rfl

theorem natToDigitsAux_decode (fuel : Nat) :
    ∀ n, n < fuel → digitsToNat (natToDigitsAux fuel n) = n := by
  induction fuel with
  | zero => omega
  | succ f ih =>
    intro n hn
    rw [natToDigitsAux]
    by_cases h10 : n < 10
    · rw [if_pos h10]
      unfold digitsToNat
      simp only [List.foldl]
      rw [digitChar_toNat n h10]
      omega
    · rw [if_neg h10]
      rw [digitsToNat_append_one]
      have hdiv : n / 10 < f := by omega
      rw [ih (n / 10) hdiv, digitChar_toNat (n % 10) (by omega)]
      omega

theorem natToDigits_decode (n : Nat) : digitsToNat (natToDigits n) = n :=
  natToDigitsAux_decode (n + 1) n (by omega)

theorem natToDigits_inj {a b : Nat} (h : natToDigits a = natToDigits b) : a = b := by
  have ha := natToDigits_decode a
  rw [h, natToDigits_decode b] at ha
  omega

theorem natRepr_inj {a b : Nat} (h : natRepr a = natRepr b) : a = b := by
  apply natToDigits_inj
  exact congrArg String.data h

theorem natToDigitsAux_chars (fuel : Nat) :
    ∀ n, ∀ c ∈ natToDigitsAux fuel n, c ≠ '_' ∧ c ≠ '.' := by
  induction fuel with
  | zero =>
    intro n c hc
    simp [natToDigitsAux] at hc
  | succ f ih =>
    intro n c hc
    rw [natToDigitsAux] at hc
    by_cases h10 : n < 10
    · rw [if_pos h10] at hc
      simp only [List.mem_singleton] at hc
      subst hc
      exact digitChar_props n h10
    · rw [if_neg h10] at hc
      rw [List.mem_append] at hc
      rcases hc with hc | hc
      · exact ih (n / 10) c hc
      · simp only [List.mem_singleton] at hc
        subst hc
        exact digitChar_props (n % 10) (by omega)

theorem natToDigits_chars (n : Nat) : ∀ c ∈ natToDigits n, c ≠ '_' ∧ c ≠ '.' :=
  natToDigitsAux_chars (n + 1) n

theorem natToDigits_ne_nil (n : Nat) : natToDigits n ≠ [] := by
  rw [natToDigits, natToDigitsAux]
  by_cases h10 : n < 10 <;> simp [h10]

/-! ### C1 groundwork: unique decodability of the joined key -/

theorem split_at_first (ch : Char) :
    ∀ (l1 l2 r1 r2 : List Char), ch ∉ l1 → ch ∉ l2 →
      l1 ++ ch :: r1 = l2 ++ ch :: r2 → l1 = l2 ∧ r1 = r2 := by
  intro l1
  induction l1 with
  | nil =>
    intro l2 r1 r2 h1 h2 heq
    cases l2 with
    | nil => simpa using heq
    | cons b t =>
      simp only [List.nil_append, List.cons_append, List.cons.injEq] at heq
      rw [heq.1] at h2
      simp at h2
  | cons a t ih =>
    intro l2 r1 r2 h1 h2 heq
    cases l2 with
    | nil =>
      simp only [List.nil_append, List.cons_append, List.cons.injEq] at heq
      rw [← heq.1] at h1
      simp at h1
    | cons b t2 =>
      simp only [List.cons_append, List.cons.injEq] at heq
      obtain ⟨hab, hrest⟩ := heq
      have h1' : ch ∉ t := fun hm => h1 (List.mem_cons_of_mem a hm)
      have h2' : ch ∉ t2 := fun hm => h2 (List.mem_cons_of_mem b hm)
      obtain ⟨he1, he2⟩ := ih t2 r1 r2 h1' h2' hrest
      exact ⟨by rw [hab, he1], he2⟩

theorem string_data_inj {s t : String} (h : s.data = t.data) : s = t := by
  cases s
  cases t
  simp only at h
  rw [h]

theorem joinParts_cons (sep s : String) (l : List String) (h : l ≠ []) :
    joinParts sep (s :: l) = s ++ sep ++ joinParts sep l := by
  cases l with
  | nil => simp at h
  | cons t r => rfl

theorem joinParts_chars : ∀ (L : List String) (c : Char),
    c ∈ (joinParts "__" L).data → c = '_' ∨ ∃ s ∈ L, c ∈ s.data := by
  intro L
  induction L with
  | nil =>
    intro c hc
    simp [joinParts] at hc
  | cons s t ih =>
    intro c hc
    cases t with
    | nil =>
      simp only [joinParts] at hc
      exact Or.inr ⟨s, by simp, hc⟩
    | cons u r =>
      rw [joinParts_cons "__" s (u :: r) (by simp)] at hc
      rw [String.data_append, String.data_append] at hc
      simp only [List.mem_append] at hc
      rcases hc with (hc | hc) | hc
      · exact Or.inr ⟨s, by simp, hc⟩
      · left
        simpa using hc
      · rcases ih c hc with h | ⟨x, hx, hcx⟩
        · exact Or.inl h
        · exact Or.inr ⟨x, List.mem_cons_of_mem s hx, hcx⟩

theorem sep_data : ("__" : String).data = ['_', '_'] := rfl

theorem joinParts_inj : ∀ (L1 L2 : List String),
    (∀ s ∈ L1, s.data ≠ [] ∧ '_' ∉ s.data) →
    (∀ s ∈ L2, s.data ≠ [] ∧ '_' ∉ s.data) →
    joinParts "__" L1 = joinParts "__" L2 → L1 = L2 := by
  intro L1
  induction L1 with
  | nil =>
    intro L2 h1 h2 heq
    cases L2 with
    | nil => rfl
    | cons b m =>
      exfalso
      have hb := (h2 b (by simp)).1
      have hdata := congrArg String.data heq
      cases m with
      | nil =>
        simp only [joinParts] at hdata
        exact hb hdata.symm
      | cons v w =>
        rw [joinParts_cons "__" b (v :: w) (by simp)] at hdata
        simp only [joinParts, String.data_append, sep_data] at hdata
        rw [List.append_assoc] at hdata
        exact hb (List.append_eq_nil.mp hdata.symm).1
  | cons a t ih =>
    intro L2 h1 h2 heq
    cases L2 with
    | nil =>
      exfalso
      have ha := (h1 a (by simp)).1
      have hdata := congrArg String.data heq
      cases t with
      | nil =>
        simp only [joinParts] at hdata
        exact ha hdata
      | cons u r =>
        rw [joinParts_cons "__" a (u :: r) (by simp)] at hdata
        simp only [joinParts, String.data_append, sep_data] at hdata
        rw [List.append_assoc] at hdata
        exact ha (List.append_eq_nil.mp hdata).1
    | cons b m =>
      cases t with
      | nil =>
        cases m with
        | nil =>
          simp only [joinParts] at heq
          rw [heq]
        | cons v w =>
          exfalso
          have ha := (h1 a (by simp)).2
          have hdata := congrArg String.data heq
          rw [joinParts_cons "__" b (v :: w) (by simp)] at hdata
          simp only [joinParts, String.data_append, sep_data] at hdata
          apply ha
          rw [hdata]
          simp
      | cons u r =>
        cases m with
        | nil =>
          exfalso
          have hb := (h2 b (by simp)).2
          have hdata := congrArg String.data heq
          rw [joinParts_cons "__" a (u :: r) (by simp)] at hdata
          simp only [joinParts, String.data_append, sep_data] at hdata
          apply hb
          rw [← hdata]
          simp
        | cons v w =>
          have hdata := congrArg String.data heq
          rw [joinParts_cons "__" a (u :: r) (by simp),
            joinParts_cons "__" b (v :: w) (by simp)] at hdata
          simp only [String.data_append, sep_data, List.append_assoc,
            List.cons_append, List.nil_append] at hdata
          obtain ⟨hab, hrest⟩ :=
            split_at_first '_' a.data b.data
              ('_' :: (joinParts "__" (u :: r)).data)
              ('_' :: (joinParts "__" (v :: w)).data)
              (h1 a (by simp)).2 (h2 b (by simp)).2 hdata
          have hJ : joinParts "__" (u :: r) = joinParts "__" (v :: w) := by
            apply string_data_inj
            simpa using hrest
          have htail := ih (v :: w)
            (fun s hs => h1 s (List.mem_cons_of_mem a hs))
            (fun s hs => h2 s (List.mem_cons_of_mem b hs)) hJ
          rw [string_data_inj hab, htail]

/-! ### C1 groundwork: recovering the optional components from the list -/

theorem optCat_tags_mem :
    ∀ (xs : List (Option String)) (ts : List (Option Char × Option Char)),
      List.Forall₂ TagOf xs ts → ∀ s ∈ optCat xs, tag2 s ∈ ts := by
  intro xs ts hf
  induction hf with
  | nil =>
    intro s hs
    simp [optCat] at hs
  | @cons o t xs' ts' h hrest ih =>
    intro s hs
    cases o with
    | none =>
      exact List.mem_cons_of_mem t (ih s hs)
    | some a =>
      simp only [optCat] at hs
      rcases List.mem_cons.mp hs with hsa | hs'
      · subst hsa
        rw [h s rfl]
        exact List.mem_cons_self t ts'
      · exact List.mem_cons_of_mem t (ih s hs')

theorem optCat_inj_tagged :
    ∀ (ts : List (Option Char × Option Char)) (xs ys : List (Option String)),
      ts.Nodup → List.Forall₂ TagOf xs ts → List.Forall₂ TagOf ys ts →
      optCat xs = optCat ys → xs = ys := by
  intro ts
  induction ts with
  | nil =>
    intro xs ys _ hx hy _
    cases hx
    cases hy
    rfl
  | cons t ts' ih =>
    intro xs ys hnd hx hy heq
    cases hx with
    | @cons o _ xs' _ h hx' =>
    cases hy with
    | @cons o' _ ys' _ h' hy' =>
    have hnd' : ts'.Nodup := hnd.of_cons
    have htn : t ∉ ts' := by
      intro hmem
      exact (List.nodup_cons.mp hnd).1 hmem
    cases o with
    | none =>
      cases o' with
      | none =>
        rw [ih xs' ys' hnd' hx' hy' (by simpa [optCat] using heq)]
      | some b =>
        exfalso
        simp only [optCat] at heq
        have hb : b ∈ optCat xs' := by
          rw [heq]
          exact List.mem_cons_self b (optCat ys')
        have := optCat_tags_mem xs' ts' hx' b hb
        rw [h' b rfl] at this
        exact htn this
    | some a =>
      cases o' with
      | none =>
        exfalso
        simp only [optCat] at heq
        have ha : a ∈ optCat ys' := by
          rw [← heq]
          exact List.mem_cons_self a (optCat xs')
        have := optCat_tags_mem ys' ts' hy' a ha
        rw [h a rfl] at this
        exact htn this
      | some b =>
        simp only [optCat, List.cons.injEq] at heq
        rw [heq.1, ih xs' ys' hnd' hx' hy' heq.2]

/-! ### C1 groundwork: facts about the individual key components -/

theorem validCfg_width (c : TransformConfig) (hv : validCfg c = true) :
    ∀ n, c.width = some n → n ≠ 0 := by
  intro n hn
  unfold validCfg at hv
  rw [hn] at hv
  simp at hv
  omega

theorem validCfg_height (c : TransformConfig) (hv : validCfg c = true) :
    ∀ n, c.height = some n → n ≠ 0 := by
  intro n hn
  unfold validCfg at hv
  rw [hn] at hv
  simp at hv
  omega

theorem validCfg_bg (c : TransformConfig) (hv : validCfg c = true) :
    ∀ b, c.background = some b → b ≠ "" ∧ ∀ ch ∈ b.data, isHexDigit ch = true := by
  intro b hb
  unfold validCfg at hv
  rw [hb] at hv
  simp at hv
  obtain ⟨-, hlen, hall⟩ := hv
  constructor
  · intro he
    subst he
    simp at hlen
  · exact hall

theorem hexDigit_ne (ch : Char) (h : isHexDigit ch = true) : ch ≠ '_' ∧ ch ≠ '.' := by
  constructor <;> intro he <;> subst he <;> exact absurd h (by decide)

theorem wPart_props (c : TransformConfig) (s : String) (h : wPart c = some s) :
    tag2 s = (some 'w', some '=') ∧ s.data ≠ [] ∧ '_' ∉ s.data ∧ '.' ∉ s.data := by
  unfold wPart at h
  by_cases tw : truthyN c.width = true
  · rw [if_pos tw, Option.some_inj] at h
    subst h
    refine ⟨rfl, by simp [w_comp_data], ?_, ?_⟩
    · rw [w_comp_data]
      simp only [List.mem_cons, not_or]
      refine ⟨by decide, by decide, ?_⟩
      intro hm
      exact (natToDigits_chars _ '_' hm).1 rfl
    · rw [w_comp_data]
      simp only [List.mem_cons, not_or]
      refine ⟨by decide, by decide, ?_⟩
      intro hm
      exact (natToDigits_chars _ '.' hm).2 rfl
  · rw [if_neg tw] at h
    exact absurd h (by simp)

theorem hPart_props (c : TransformConfig) (s : String) (h : hPart c = some s) :
    tag2 s = (some 'h', some '=') ∧ s.data ≠ [] ∧ '_' ∉ s.data ∧ '.' ∉ s.data := by
  unfold hPart at h
  by_cases tw : truthyN c.height = true
  · rw [if_pos tw, Option.some_inj] at h
    subst h
    refine ⟨rfl, by simp [h_comp_data], ?_, ?_⟩
    · rw [h_comp_data]
      simp only [List.mem_cons, not_or]
      refine ⟨by decide, by decide, ?_⟩
      intro hm
      exact (natToDigits_chars _ '_' hm).1 rfl
    · rw [h_comp_data]
      simp only [List.mem_cons, not_or]
      refine ⟨by decide, by decide, ?_⟩
      intro hm
      exact (natToDigits_chars _ '.' hm).2 rfl
  · rw [if_neg tw] at h
    exact absurd h (by simp)

theorem qPart_props (c : TransformConfig) (s : String) (h : qPart c = some s) :
    tag2 s = (some 'q', some '=') ∧ s.data ≠ [] ∧ '_' ∉ s.data ∧ '.' ∉ s.data := by
  unfold qPart at h
  by_cases hq : c.quality ≠ 80
  · rw [if_pos hq, Option.some_inj] at h
    subst h
    refine ⟨rfl, by simp [q_comp_data], ?_, ?_⟩
    · rw [q_comp_data]
      simp only [List.mem_cons, not_or]
      refine ⟨by decide, by decide, ?_⟩
      intro hm
      exact (natToDigits_chars _ '_' hm).1 rfl
    · rw [q_comp_data]
      simp only [List.mem_cons, not_or]
      refine ⟨by decide, by decide, ?_⟩
      intro hm
      exact (natToDigits_chars _ '.' hm).2 rfl
  · rw [if_neg hq] at h
    exact absurd h (by simp)

theorem fitPart_props (c : TransformConfig) (s : String) (h : fitPart c = some s) :
    tag2 s = (some 'f', some 'i') ∧ s.data ≠ [] ∧ '_' ∉ s.data ∧ '.' ∉ s.data := by
  unfold fitPart at h
  by_cases hc : c.fit ≠ .cover ∧ (truthyN c.width || truthyN c.height) = true
  · rw [if_pos hc, Option.some_inj] at h
    subst h
    cases c.fit <;> exact ⟨rfl, by decide, by decide, by decide⟩
  · rw [if_neg hc] at h
    exact absurd h (by simp)

theorem fmtPart_props (c : TransformConfig) (s : String) (h : fmtPart c = some s) :
    tag2 s = (some 'f', some 'm') ∧ s.data ≠ [] ∧ '_' ∉ s.data ∧ '.' ∉ s.data := by
  unfold fmtPart at h
  cases hf : c.format with
  | none =>
    rw [hf] at h
    exact absurd h (by simp)
  | some f =>
    rw [hf] at h
    have h' : (if f ≠ inferFormatFromPath c.path then
        some ("fmt=" ++ formatToString f) else none) = some s := h
    by_cases hne : f ≠ inferFormatFromPath c.path
    · rw [if_pos hne, Option.some_inj] at h'
      subst h'
      cases f <;> exact ⟨rfl, by decide, by decide, by decide⟩
    · rw [if_neg hne] at h'
      exact absurd h' (by simp)

theorem bgPart_props (c : TransformConfig) (hv : validCfg c = true) (s : String)
    (h : bgPart c = some s) :
    tag2 s = (some 'b', some 'g') ∧ s.data ≠ [] ∧ '_' ∉ s.data ∧ '.' ∉ s.data := by
  unfold bgPart at h
  cases hb : c.background with
  | none =>
    rw [hb] at h
    exact absurd h (by simp)
  | some b =>
    rw [hb] at h
    obtain ⟨hbne, hhex⟩ := validCfg_bg c hv b hb
    have h' : (if b = "" then none else some ("bg=" ++ b)) = some s := h
    rw [if_neg hbne, Option.some_inj] at h'
    subst h'
    refine ⟨rfl, by simp [bg_comp_data], ?_, ?_⟩
    · rw [bg_comp_data]
      simp only [List.mem_cons, not_or]
      refine ⟨by decide, by decide, by decide, ?_⟩
      intro hm
      exact (hexDigit_ne '_' (hhex '_' hm)).1 rfl
    · rw [bg_comp_data]
      simp only [List.mem_cons, not_or]
      refine ⟨by decide, by decide, by decide, ?_⟩
      intro hm
      exact (hexDigit_ne '.' (hhex '.' hm)).2 rfl

theorem cropPart_props (c : TransformConfig) (s : String) (h : cropPart c = some s) :
    tag2 s = (some 'c', some 'r') ∧ s.data ≠ [] ∧ '_' ∉ s.data ∧ '.' ∉ s.data := by
  unfold cropPart at h
  by_cases hc : c.crop ≠ .center ∧ (truthyN c.width || truthyN c.height) = true
  · rw [if_pos hc, Option.some_inj] at h
    subst h
    cases c.crop <;> exact ⟨rfl, by decide, by decide, by decide⟩
  · rw [if_neg hc] at h
    exact absurd h (by simp)

/-! ### C1 groundwork: reading the configuration back off the components -/

theorem wPart_map (c : TransformConfig) (hv : validCfg c = true) :
    wPart c = c.width.map (fun n => "w=" ++ natRepr n) := by
  unfold wPart
  cases hw : c.width with
  | none => simp [truthyN]
  | some n =>
    have := validCfg_width c hv n hw
    simp [truthyN, this]

theorem hPart_map (c : TransformConfig) (hv : validCfg c = true) :
    hPart c = c.height.map (fun n => "h=" ++ natRepr n) := by
  unfold hPart
  cases hw : c.height with
  | none => simp [truthyN]
  | some n =>
    have := validCfg_height c hv n hw
    simp [truthyN, this]

theorem bgPart_map (c : TransformConfig) (hv : validCfg c = true) :
    bgPart c = c.background.map (fun b => "bg=" ++ b) := by
  unfold bgPart
  cases hb : c.background with
  | none => rfl
  | some b =>
    have := (validCfg_bg c hv b hb).1
    simp [this]

theorem wtag_inj {a b : Nat} (h : "w=" ++ natRepr a = "w=" ++ natRepr b) : a = b := by
  have hd := congrArg String.data h
  rw [w_comp_data, w_comp_data] at hd
  simp only [List.cons.injEq, true_and] at hd
  exact natToDigits_inj hd

theorem htag_inj {a b : Nat} (h : "h=" ++ natRepr a = "h=" ++ natRepr b) : a = b := by
  have hd := congrArg String.data h
  rw [h_comp_data, h_comp_data] at hd
  simp only [List.cons.injEq, true_and] at hd
  exact natToDigits_inj hd

theorem qtag_inj {a b : Nat} (h : "q=" ++ natRepr a = "q=" ++ natRepr b) : a = b := by
  have hd := congrArg String.data h
  rw [q_comp_data, q_comp_data] at hd
  simp only [List.cons.injEq, true_and] at hd
  exact natToDigits_inj hd

theorem bgtag_inj {a b : String} (h : "bg=" ++ a = "bg=" ++ b) : a = b := by
  have hd := congrArg String.data h
  rw [bg_comp_data, bg_comp_data] at hd
  simp only [List.cons.injEq, true_and] at hd
  exact string_data_inj hd

theorem width_from_parts (c1 c2 : TransformConfig) (hv1 : validCfg c1 = true)
    (hv2 : validCfg c2 = true) (h : wPart c1 = wPart c2) : c1.width = c2.width := by
  rw [wPart_map c1 hv1, wPart_map c2 hv2] at h
  cases h1 : c1.width <;> cases h2 : c2.width <;> rw [h1, h2] at h <;> simp at h
  exact congrArg some (wtag_inj h)

theorem height_from_parts (c1 c2 : TransformConfig) (hv1 : validCfg c1 = true)
    (hv2 : validCfg c2 = true) (h : hPart c1 = hPart c2) : c1.height = c2.height := by
  rw [hPart_map c1 hv1, hPart_map c2 hv2] at h
  cases h1 : c1.height <;> cases h2 : c2.height <;> rw [h1, h2] at h <;> simp at h
  exact congrArg some (htag_inj h)

theorem bg_from_parts (c1 c2 : TransformConfig) (hv1 : validCfg c1 = true)
    (hv2 : validCfg c2 = true) (h : bgPart c1 = bgPart c2) :
    c1.background = c2.background := by
  rw [bgPart_map c1 hv1, bgPart_map c2 hv2] at h
  cases h1 : c1.background <;> cases h2 : c2.background <;> rw [h1, h2] at h <;> simp at h
  exact congrArg some (bgtag_inj h)

theorem quality_from_parts (c1 c2 : TransformConfig) (h : qPart c1 = qPart c2) :
    c1.quality = c2.quality := by
  unfold qPart at h
  by_cases h1 : c1.quality = 80 <;> by_cases h2 : c2.quality = 80
  · omega
  · simp [h1, h2] at h
  · simp [h1, h2] at h
  · simp only [if_pos h1, if_pos h2] at h
    simp only [Option.some_inj] at h
    exact qtag_inj h

theorem fit_from_parts (c1 c2 : TransformConfig)
    (hd1 : (truthyN c1.width || truthyN c1.height) = true)
    (hd2 : (truthyN c2.width || truthyN c2.height) = true)
    (h : fitPart c1 = fitPart c2) : c1.fit = c2.fit := by
  unfold fitPart at h
  rw [hd1, hd2] at h
  cases hf1 : c1.fit <;> cases hf2 : c2.fit <;> rw [hf1, hf2] at h <;>
    first
      | rfl
      | (exfalso; revert h; decide)

theorem crop_from_parts (c1 c2 : TransformConfig)
    (hd1 : (truthyN c1.width || truthyN c1.height) = true)
    (hd2 : (truthyN c2.width || truthyN c2.height) = true)
    (h : cropPart c1 = cropPart c2) : c1.crop = c2.crop := by
  unfold cropPart at h
  rw [hd1, hd2] at h
  cases hf1 : c1.crop <;> cases hf2 : c2.crop <;> rw [hf1, hf2] at h <;>
    first
      | rfl
      | (exfalso; revert h; decide)

theorem ext_inj (f g : ImageFormat)
    (h : (getExtensionFromFormat f).data = (getExtensionFromFormat g).data) : f = g := by
  cases f <;> cases g <;> first | rfl | (exact absurd h (by decide))

/-! ### C1: the cache key determines the resolved configuration -/

theorem dot_data : ("." : String).data = ['.'] := rfl

theorem rest_ne_nil (c : TransformConfig)
    (hd : truthyN c.width = true ∨ truthyN c.height = true) :
    optCat [wPart c, hPart c, fitPart c, fmtPart c, qPart c, bgPart c, cropPart c] ≠ [] := by
  rcases hd with h | h
  · simp [optCat, wPart, h]
  · cases htw : truthyN c.width
    · simp [optCat, wPart, hPart, htw, h]
    · simp [optCat, wPart, htw]

theorem rest_parts_ok (c : TransformConfig) (hv : validCfg c = true) :
    ∀ s ∈ optCat [wPart c, hPart c, fitPart c, fmtPart c, qPart c, bgPart c, cropPart c],
      s.data ≠ [] ∧ '_' ∉ s.data ∧ '.' ∉ s.data := by
  intro s hs
  have hmem := (optCat_mem s _).mp hs
  simp only [List.mem_cons, List.not_mem_nil, or_false] at hmem
  rcases hmem with h | h | h | h | h | h | h
  · exact (wPart_props c s h.symm).2
  · exact (hPart_props c s h.symm).2
  · exact (fitPart_props c s h.symm).2
  · exact (fmtPart_props c s h.symm).2
  · exact (qPart_props c s h.symm).2
  · exact (bgPart_props c hv s h.symm).2
  · exact (cropPart_props c s h.symm).2

theorem rest_join_no_dot (c : TransformConfig) (hv : validCfg c = true) :
    '.' ∉ (joinParts "__"
      (optCat [wPart c, hPart c, fitPart c, fmtPart c, qPart c, bgPart c, cropPart c])).data := by
  intro hm
  rcases joinParts_chars _ '.' hm with h | ⟨s, hs, hcs⟩
  · exact absurd h (by decide)
  · exact (rest_parts_ok c hv s hs).2.2 hcs

theorem slots_tagged (c : TransformConfig) (hv : validCfg c = true) :
    List.Forall₂ TagOf [wPart c, hPart c, fitPart c, fmtPart c, qPart c, bgPart c, cropPart c]
      [(some 'w', some '='), (some 'h', some '='), (some 'f', some 'i'), (some 'f', some 'm'),
        (some 'q', some '='), (some 'b', some 'g'), (some 'c', some 'r')] := by
  refine .cons ?_ (.cons ?_ (.cons ?_ (.cons ?_ (.cons ?_ (.cons ?_ (.cons ?_ .nil))))))
  · exact fun s h => (wPart_props c s h).1
  · exact fun s h => (hPart_props c s h).1
  · exact fun s h => (fitPart_props c s h).1
  · exact fun s h => (fmtPart_props c s h).1
  · exact fun s h => (qPart_props c s h).1
  · exact fun s h => (bgPart_props c hv s h).1
  · exact fun s h => (cropPart_props c s h).1

theorem cacheKey_eq_resolved (c1 c2 : TransformConfig)
    (hv1 : validCfg c1 = true) (hv2 : validCfg c2 = true)
    (hpath : c1.path = c2.path)
    (hd1 : truthyN c1.width = true ∨ truthyN c1.height = true)
    (hd2 : truthyN c2.width = true ∨ truthyN c2.height = true)
    (hkey : buildCacheKey c1 = buildCacheKey c2) :
    resolvedTuple c1 = resolvedTuple c2 := by
  unfold buildCacheKey buildCacheKeyParts at hkey
  rw [joinParts_cons "__" _ _ (rest_ne_nil c1 hd1),
    joinParts_cons "__" _ _ (rest_ne_nil c2 hd2), hpath] at hkey
  have hdata := congrArg String.data hkey
  simp only [String.data_append, sep_data, dot_data, List.append_assoc, List.cons_append,
    List.nil_append] at hdata
  have hcut := List.append_cancel_left hdata
  simp only [List.cons.injEq, true_and] at hcut
  obtain ⟨hJ, hE⟩ := split_at_first '.'
    (joinParts "__"
      (optCat [wPart c1, hPart c1, fitPart c1, fmtPart c1, qPart c1, bgPart c1, cropPart c1])).data
    (joinParts "__"
      (optCat [wPart c2, hPart c2, fitPart c2, fmtPart c2, qPart c2, bgPart c2, cropPart c2])).data
    (getExtensionFromFormat (outputFormat c1)).data
    (getExtensionFromFormat (outputFormat c2)).data
    (rest_join_no_dot c1 hv1) (rest_join_no_dot c2 hv2) hcut
  have hfmt : outputFormat c1 = outputFormat c2 := ext_inj _ _ hE
  have hrest := joinParts_inj _ _
    (fun s hs => ⟨(rest_parts_ok c1 hv1 s hs).1, (rest_parts_ok c1 hv1 s hs).2.1⟩)
    (fun s hs => ⟨(rest_parts_ok c2 hv2 s hs).1, (rest_parts_ok c2 hv2 s hs).2.1⟩)
    (string_data_inj hJ)
  have hslots := optCat_inj_tagged
    [(some 'w', some '='), (some 'h', some '='), (some 'f', some 'i'), (some 'f', some 'm'),
      (some 'q', some '='), (some 'b', some 'g'), (some 'c', some 'r')]
    _ _ (by decide) (slots_tagged c1 hv1) (slots_tagged c2 hv2) hrest
  simp only [List.cons.injEq, and_true] at hslots
  obtain ⟨hwp, hhp, hfitp, hfmtp, hqp, hbgp, hcropp⟩ := hslots
  have hwidth := width_from_parts c1 c2 hv1 hv2 hwp
  have hheight := height_from_parts c1 c2 hv1 hv2 hhp
  have hdd1 : (truthyN c1.width || truthyN c1.height) = true := by
    rcases hd1 with h | h <;> simp [h]
  have hdd2 : (truthyN c2.width || truthyN c2.height) = true := by
    rcases hd2 with h | h <;> simp [h]
  have hfit := fit_from_parts c1 c2 hdd1 hdd2 hfitp
  have hq := quality_from_parts c1 c2 hqp
  have hbg := bg_from_parts c1 c2 hv1 hv2 hbgp
  have hcrop := crop_from_parts c1 c2 hdd1 hdd2 hcropp
  unfold resolvedTuple
  rw [hwidth, hheight, hfit, hfmt, hq, hbg, hcrop]

theorem parseIntParam_ok_bounds (v : Option String) (mn mx : Nat) (n : Nat)
    (h : parseIntParam v mn mx = .ok (some n)) : mn ≤ n ∧ n ≤ mx := by
  cases v with
  | none => simp [parseIntParam] at h
  | some s =>
    by_cases hs : s = ""
    · simp [parseIntParam, hs] at h
    · simp only [parseIntParam, if_neg hs] at h
      cases hj : jsParseInt s with
      | none =>
        simp only [hj] at h
        exact Except.noConfusion h
      | some z =>
        simp only [hj] at h
        by_cases hr : z < (mn : Int) ∨ (mx : Int) < z
        · simp only [if_pos hr] at h
          exact Except.noConfusion h
        · simp only [if_neg hr] at h
          simp only [Except.ok.injEq, Option.some_inj] at h
          omega

theorem parseBackground_ok (v : Option String) (b : String)
    (h : parseBackground v = .ok (some b)) :
    b.length = 6 ∧ b.data.all isHexDigit = true := by
  cases v with
  | none => simp [parseBackground] at h
  | some s =>
    by_cases hs : s = ""
    · simp [parseBackground, hs] at h
    · simp only [parseBackground, if_neg hs] at h
      by_cases hx : (s.length = 6 && s.data.all isHexDigit) = true
      · rw [if_pos hx] at h
        simp only [Except.ok.injEq, Option.some_inj] at h
        subst h
        simpa using hx
      · rw [if_neg hx] at h
        simp at h

/-- The parameter validator only produces valid configurations: present
dimensions are positive and a present background is six hex digits. -/
theorem parseQueryParams_valid (get : String → Option String) (limits : ValidationLimits)
    (c : TransformConfig) (h : parseQueryParams get limits = .ok c) : validCfg c = true := by
  unfold parseQueryParams at h
  cases hp : get "path" with
  | none =>
    simp only [hp] at h
    exact Except.noConfusion h
  | some rp =>
    simp only [hp] at h
    by_cases hrp : rp = ""
    · simp only [if_pos hrp] at h
      exact Except.noConfusion h
    · simp only [if_neg hrp] at h
      cases hsan : sanitizePath rp with
      | error e =>
        simp only [hsan] at h
        exact Except.noConfusion h
      | ok pth =>
        simp only [hsan] at h
        cases hw : parseIntParam (get "w") 1 limits.maxWidth with
        | error e =>
          simp only [hw] at h
          exact Except.noConfusion h
        | ok wo =>
          simp only [hw] at h
          cases hh : parseIntParam (get "h") 1 limits.maxHeight with
          | error e =>
            simp only [hh] at h
            exact Except.noConfusion h
          | ok ho =>
            simp only [hh] at h
            cases hf : parseFitMode (get "fit") with
            | error e =>
              simp only [hf] at h
              exact Except.noConfusion h
            | ok fit =>
              simp only [hf] at h
              cases hfo : parseFormat (get "format") with
              | error e =>
                simp only [hfo] at h
                exact Except.noConfusion h
              | ok fo =>
                simp only [hfo] at h
                cases hq : parseIntParam (get "q") 1 100 with
                | error e =>
                  simp only [hq] at h
                  exact Except.noConfusion h
                | ok qo =>
                  simp only [hq] at h
                  cases hb : parseBackground (get "bg") with
                  | error e =>
                    simp only [hb] at h
                    exact Except.noConfusion h
                  | ok bo =>
                    simp only [hb] at h
                    cases hcr : parseCropPosition (get "crop") with
                    | error e =>
                      simp only [hcr] at h
                      exact Except.noConfusion h
                    | ok cr =>
                      simp only [hcr] at h
                      simp only [Except.ok.injEq] at h
                      subst h
                      unfold validCfg
                      simp only [Bool.and_eq_true]
                      refine ⟨⟨?_, ?_⟩, ?_⟩
                      · cases hwo : wo with
                        | none => rfl
                        | some n =>
                          rw [hwo] at hw
                          have := parseIntParam_ok_bounds _ _ _ _ hw
                          simp only [decide_eq_true_eq]
                          omega
                      · cases hho : ho with
                        | none => rfl
                        | some n =>
                          rw [hho] at hh
                          have := parseIntParam_ok_bounds _ _ _ _ hh
                          simp only [decide_eq_true_eq]
                          omega
                      · cases hbo : bo with
                        | none => rfl
                        | some b =>
                          rw [hbo] at hb
                          have := parseBackground_ok _ _ hb
                          simp only [Bool.and_eq_true, decide_eq_true_eq]
                          exact ⟨this.1, this.2⟩

/-- C1 counterexample: two valid configs with the same source path and no
dimensions — one requesting fit=contain with a background, one the
default fit=cover with the same background — differ in their resolved fit
(which is transform-relevant: fit=contain composites the background,
fit=cover does not), yet `buildCacheKey` yields the same key for both,
because the fit component is emitted only when a dimension is present. -/
theorem cacheKey_collision_fit_without_dims :
    parseQueryParams
        (fun k => if k = "path" then some "a.jpg" else if k = "fit" then some "contain"
          else if k = "bg" then some "ffffff" else none)
        ⟨2000, 2000, 80, "images"⟩ =
      .ok { bucket := "images", path := "a.jpg", width := none, height := none,
            fit := .contain, format := none, quality := 80, background := some "ffffff",
            crop := .center, noCache := false } ∧
    parseQueryParams
        (fun k => if k = "path" then some "a.jpg" else if k = "bg" then some "ffffff" else none)
        ⟨2000, 2000, 80, "images"⟩ =
      .ok { bucket := "images", path := "a.jpg", width := none, height := none,
            fit := .cover, format := none, quality := 80, background := some "ffffff",
            crop := .center, noCache := false } ∧
    resolvedTuple
        { bucket := "images", path := "a.jpg", width := none, height := none,
          fit := .contain, format := none, quality := 80, background := some "ffffff",
          crop := .center, noCache := false } ≠
      resolvedTuple
        { bucket := "images", path := "a.jpg", width := none, height := none,
          fit := .cover, format := none, quality := 80, background := some "ffffff",
          crop := .center, noCache := false } ∧
    buildCacheKey
        { bucket := "images", path := "a.jpg", width := none, height := none,
          fit := .contain, format := none, quality := 80, background := some "ffffff",
          crop := .center, noCache := false } =
      buildCacheKey
        { bucket := "images", path := "a.jpg", width := none, height := none,
          fit := .cover, format := none, quality := 80, background := some "ffffff",
          crop := .center, noCache := false } :=
  ⟨rfl, rfl, by decide, rfl⟩

/-- C1 (corrected): for valid configs with the same source path that both
specify at least one (truthy) dimension, any difference in the resolved
transform-relevant values (width, height, fit, resolved output format,
quality, background, crop) forces different cache keys.  Without a
dimension the fit and crop components are dropped from the key, so such
configs can collide (see the counterexample). -/
theorem buildCacheKey_inj_of_dims (c1 c2 : TransformConfig)
    (hv1 : validCfg c1 = true) (hv2 : validCfg c2 = true)
    (hpath : c1.path = c2.path)
    (hd1 : truthyN c1.width = true ∨ truthyN c1.height = true)
    (hd2 : truthyN c2.width = true ∨ truthyN c2.height = true)
    (hne : resolvedTuple c1 ≠ resolvedTuple c2) :
    buildCacheKey c1 ≠ buildCacheKey c2 :=
  fun hkey => hne (cacheKey_eq_resolved c1 c2 hv1 hv2 hpath hd1 hd2 hkey)

/-- C1 witness: two valid configs on the same path differing only in the
requested width get different cache keys. -/
theorem buildCacheKey_inj_of_dims_witness :
    validCfg
        { bucket := "images", path := "a.jpg", width := some 400, height := none,
          fit := .cover, format := none, quality := 80, background := none,
          crop := .center, noCache := false } = true ∧
    resolvedTuple
        { bucket := "images", path := "a.jpg", width := some 400, height := none,
          fit := .cover, format := none, quality := 80, background := none,
          crop := .center, noCache := false } ≠
      resolvedTuple
        { bucket := "images", path := "a.jpg", width := some 500, height := none,
          fit := .cover, format := none, quality := 80, background := none,
          crop := .center, noCache := false } ∧
    buildCacheKey
        { bucket := "images", path := "a.jpg", width := some 400, height := none,
          fit := .cover, format := none, quality := 80, background := none,
          crop := .center, noCache := false } ≠
      buildCacheKey
        { bucket := "images", path := "a.jpg", width := some 500, height := none,
          fit := .cover, format := none, quality := 80, background := none,
          crop := .center, noCache := false } :=
  ⟨by decide, by decide,
    buildCacheKey_inj_of_dims _ _ (by decide) (by decide) rfl
      (Or.inl (by decide)) (Or.inl (by decide)) (by decide)⟩
